import Mathlib

/-!
Verification development for the aircraft-trajectory / satellite-image
pipeline (files `Main.py`, `Utils.py`, `Plotting.py`, `Data_Load.py`).

The embedding below mirrors the Python source:
* timestamps are a record of calendar fields (`DT`), as in `datetime`;
  schedule entries are rationals (the source uses Python ints/floats, and
  for every schedule the table produces, float arithmetic on
  `minute + second/60` comparisons agrees with exact rational arithmetic,
  since all table entries are multiples of 1/60 and comparisons are never
  within float rounding distance of a tie unless exactly equal);
* resampling timestamps are integer epoch seconds (the trajectory readers
  parse `%H:%M:%S`-resolution timestamps, so one-second granularity is the
  granularity of the data, and `pd.date_range` with a seconds frequency
  stays on that grid);
* the frame-driving loop of `main_aircraft_processing` is a step function
  plus a fold that stops when an iteration raises.  In the source the
  render call (Main.py line 126) raises on every non-skipped iteration:
  its argument `sat_img[comp]` subscripts `None` when no scene is held,
  and otherwise the call binds four positional arguments against the
  three parameters of `Plotting.setup_plot` (Plotting.py line 31) — a
  `TypeError` either way — so only skipped iterations continue the loop.
-/

/-- Calendar timestamp, mirroring the fields of Python `datetime` that the
source reads and writes. -/
structure DT where
  year : Nat
  month : Nat
  day : Nat
  hour : Nat
  minute : Nat
  second : Nat
  microsecond : Nat
deriving DecidableEq, Repr

/-- Python `int()` on a rational: truncation toward zero.  Every schedule
entry the table produces is nonnegative, where this is the floor. -/
def pyInt (q : ℚ) : ℤ := if 0 ≤ q then ⌊q⌋ else -⌊-q⌋

/-- The scan of `get_sat_time`'s loop (Utils.py lines 295-302): walk the
schedule from its second element; at the first element strictly greater
than `m`, return the element before it; if none exceeds `m`, return
nothing (the loop falls through without a `break`). -/
def snapEntry : List ℚ → ℚ → Option ℚ
  | a :: b :: rest, m => if m < b then some a else snapEntry (b :: rest) m
  | _, _ => none

/-- The timestamp `get_sat_time` builds in its snap branch
(Utils.py lines 298-301): `datetime(year, month, day, hour, int(e),
int((e - int(e)) * 60))`, microsecond 0 (fresh `datetime`, and
`replace(microsecond=0)` follows anyway). -/
def snapResult (inti : DT) (e : ℚ) : DT :=
  { year := inti.year, month := inti.month, day := inti.day,
    hour := inti.hour, minute := (pyInt e).toNat,
    second := (pyInt ((e - (pyInt e : ℚ)) * 60)).toNat, microsecond := 0 }

/-- `Utils.get_sat_time` (lines 284-305): map a timestamp to the satellite
scan start.  `tempt = minute + second/60`; the first schedule entry (from
index 1) exceeding `tempt` selects the previous entry as the snapped
minute; otherwise the input passes through; microseconds are zeroed. -/
def get_sat_time (inti : DT) (timestep : List ℚ) : DT :=
  match snapEntry timestep ((inti.minute : ℚ) + (inti.second : ℚ) / 60) with
  | some e => snapResult inti e
  | none => { inti with microsecond := 0 }

/-- `Utils.sat_timesteps` (lines 350-379): the static per-(sensor, mode)
table of intra-hour scan start minutes.  Unknown combinations return the
integer `-1` (modelled as `Sum.inl`), known ones a list of minutes
(`Sum.inr`); `np.linspace` calls are expanded to the lists they denote. -/
def sat_timesteps (sensor mode : String) : Sum ℤ (List ℚ) :=
  if sensor = "AHI" then
    if mode = "FD" then Sum.inr [0, 10, 20, 30, 40, 50]
    else if mode = "MESO" then
      Sum.inr ((List.range 25).map (fun (k : ℕ) => (k : ℚ) * 5 / 2))
    else Sum.inl (-1)
  else if sensor = "ABI" then
    if mode = "CONUS" ∨ mode = "PACUS" then
      Sum.inr ((List.range 12).map (fun (k : ℕ) => (k : ℚ) * 5))
    else if mode = "M1" ∨ mode = "M2" then
      Sum.inr ((List.range 60).map (fun (k : ℕ) => (k : ℚ)))
    else Sum.inl (-1)
  else if sensor = "SEV" ∨ sensor = "SEVN" then
    if mode = "FD" then Sum.inr [0, 10, 20, 30, 40, 50]
    else if mode = "RSS" then
      Sum.inr ((List.range 12).map (fun (k : ℕ) => (k : ℚ) * 5))
    else Sum.inl (-1)
  else Sum.inl (-1)

/-- `Utils.sat_timestep_time` (lines 308-347): scan duration in minutes,
`-1` for unknown combinations (a plain returned value, not an error). -/
def sat_timestep_time (sensor mode : String) : ℚ :=
  if sensor = "AHI" then
    if mode = "FD" then 10
    else if mode = "MESO" then 5 / 2
    else -1
  else if sensor = "ABI" then
    if mode = "FD" then 10
    else if mode = "CONUS" then 5
    else if mode = "PACUS" then 5
    else if mode = "M1" then 1
    else if mode = "M2" then 1
    else 1
  else if sensor = "SEV" ∨ sensor = "SEVN" then
    if mode = "FD" then 10
    else if mode = "RSS" then 5
    else -1
  else -1

/-- Applying `get_sat_time` to the value `sat_timesteps` returned: when the
table produced the integer sentinel `-1`, the `len(timestep)` call inside
`get_sat_time` raises `TypeError` (an `int` has no `len`); otherwise the
mapping proceeds normally. -/
def get_sat_time_checked (inti : DT) (timestep : Sum ℤ (List ℚ)) :
    Except String DT :=
  match timestep with
  | Sum.inl _ => Except.error "TypeError: object of type int has no len()"
  | Sum.inr l => Except.ok (get_sat_time inti l)

/-- The first value `Utils.get_startend` (lines 237-258) computes:
`get_sat_time(ac_traj.index[0], sat_timesteps(sensor, mode))`.  This runs
at Main.py line 93, before the frame loop starting at line 99. -/
def get_startend_start (t0 : DT) (sensor mode : String) : Except String DT :=
  get_sat_time_checked t0 (sat_timesteps sensor mode)

/-- One position of the aircraft trajectory: the `Latitude` and `Longitude`
columns of the dataframe rows that `calc_bounds_traj` and `calc_bounds_sp`
read (other columns are not consulted by them). -/
structure AcPoint where
  lat : ℚ
  lon : ℚ
deriving DecidableEq, Repr

/-- Pandas column `.min()`: fold of `min` over the column's values
(defined on nonempty columns; the `[]` case is never used by the source,
which always passes the trajectory read from file). -/
def colMin : List ℚ → ℚ
  | [] => 0
  | x :: r => r.foldl min x

/-- Pandas column `.max()`: fold of `max` over the column's values. -/
def colMax : List ℚ → ℚ
  | [] => 0
  | x :: r => r.foldl max x

/-- Pandas column `.mean()`: sum divided by length. -/
def colMean (xs : List ℚ) : ℚ := xs.sum / (xs.length : ℚ)

/-- `Utils.calc_bounds_traj` (lines 96-127): min/max of latitude and
longitude over the trajectory, each axis widened by
`margin × (max − min)` on both sides; result
`[lon0, lon1, lat0, lat1]`. -/
def calc_bounds_traj (ac_traj : List AcPoint) (lat_bnd lon_bnd : ℚ) :
    List ℚ :=
  let lat_min := colMin (ac_traj.map AcPoint.lat)
  let lat_max := colMax (ac_traj.map AcPoint.lat)
  let lat_diff := lat_max - lat_min
  let lat0 := lat_min - lat_diff * lat_bnd
  let lat1 := lat_max + lat_diff * lat_bnd
  let lon_min := colMin (ac_traj.map AcPoint.lon)
  let lon_max := colMax (ac_traj.map AcPoint.lon)
  let lon_diff := lon_max - lon_min
  let lon0 := lon_min - lon_diff * lon_bnd
  let lon1 := lon_max + lon_diff * lon_bnd
  [lon0, lon1, lat0, lat1]

/-- `Utils.calc_bounds_sp` (lines 67-93): a fixed absolute margin centred
on the mean position; result `[lon0, lon1, lat0, lat1]`. -/
def calc_bounds_sp (ac_pt : List AcPoint) (lat_bnd lon_bnd : ℚ) : List ℚ :=
  let lat := colMean (ac_pt.map AcPoint.lat)
  let lon := colMean (ac_pt.map AcPoint.lon)
  [lon - lon_bnd, lon + lon_bnd, lat - lat_bnd, lat + lat_bnd]

/-- The GeoExtent invariant claimed by the spec, on a four-element extent
list: lon_min < lon_max and lat_min < lat_max. -/
def extentOK : List ℚ → Bool
  | [lon0, lon1, lat0, lat1] => decide (lon0 < lon1) && decide (lat0 < lat1)
  | _ => false

/-- Zeroing the seconds field of a timestamp held as integer epoch
seconds: `st_time.replace(second=0)` in `interp_ac` (Utils.py line 149). -/
def truncMin (t : Nat) : Nat := t / 60 * 60

/-- `pd.date_range(start, end, freq)` on integer epoch seconds with a
positive frequency in seconds: `start, start+freq, ...` while the value
does not exceed `end` (empty when `start > end`; a zero frequency is
rejected by pandas, modelled as empty). -/
def dateRange (start stop freq : Nat) : List Nat :=
  if _hf : freq = 0 then []
  else if _hs : start ≤ stop then start :: dateRange (start + freq) stop freq
  else []
termination_by stop + 1 - start
decreasing_by simp_wf; omega

/-- The output timestamp grid of `Utils.interp_ac` (lines 130-178): from
the first input timestamp with seconds zeroed, stepping by `freq`, through
the last input timestamp inclusive. -/
def interp_times (in_times : List Nat) (freq : Nat) : List Nat :=
  dateRange (truncMin in_times.headI) (in_times.getLastD 0) freq

/-- Scenes are opaque tokens: the driver only stores them, compares them
with `None`, and hands them to the renderer. -/
abbrev Scene := Nat

/-- Loop-carried state of `main_aircraft_processing`'s frame loop
(Main.py lines 95-97 initialise it): the window of the most recent load
attempt, the last outcome kept for fallback, and the scene variable
handed to the renderer. -/
structure DriverState where
  prev_time : DT
  old_scn : Option Scene
  sat_img : Option Scene
deriving DecidableEq, Repr

/-- `prev_time = datetime(1850, 1, 1, 0, 0, 0)`, `old_scn = None`,
`sat_img = None` (Main.py lines 95-97). -/
def initState : DriverState :=
  { prev_time := ⟨1850, 1, 1, 0, 0, 0, 0⟩, old_scn := none, sat_img := none }

/-- What one loop iteration did: whether `indata.load_sat` was invoked,
and how the iteration ended.  No iteration that reaches the render call
succeeds: Main.py line 126 passes four positional arguments
(`plot_bounds, bg_col, linewid, sat_img[comp].attrs[...].to_cartopy_crs()`)
to `Plotting.setup_plot`, whose definition (Plotting.py line 31) takes
exactly three (`extent, bg_col, linewid`), so the call raises `TypeError`
whenever its argument expressions evaluate. -/
inductive FrameResult
  /-- The output file existed; the iteration was skipped by `continue`
  (Main.py lines 101-102) before any other per-frame work. -/
  | skipped
  /-- Python evaluates the argument expressions of line 126 first:
  `sat_img[comp]` with `sat_img = None` raises `TypeError`
  (subscripting `None`); the run aborts. -/
  | crashedNoneScene
  /-- A scene was held, the arguments of line 126 evaluated, and the call
  bound four positional arguments against the three parameters of
  `setup_plot`: `TypeError` from the call itself; the run aborts. -/
  | crashedSetupPlot
deriving DecidableEq, Repr

/-- Record of one iteration of the frame loop. -/
structure StepLog where
  loaderCalled : Bool
  result : FrameResult
deriving DecidableEq, Repr

/-- One frame of the loop: whether its expected output file
`out_dir + str(i-1).zfill(4) + '_' + comp + '_' + tag + '.png'` already
exists, and the trajectory timestamp `ac_traj2.index[i]`. -/
structure AcFrame where
  outExists : Bool
  cur_time : DT
deriving DecidableEq, Repr

/-- One iteration of the loop body of `main_aircraft_processing`
(Main.py lines 99-140): skip if the output exists; map the timestamp to
the scan window; if it differs from `prev_time`, invoke the loader and
apply the fallback (lines 111-118), else keep the loop-carried scene;
then the render call at line 126 raises either way — subscripting `None`
when no scene is held, otherwise the four-against-three argument binding
of `setup_plot` — so every non-skipped iteration ends in a
`TypeError`. -/
def procFrame (loader : DT → Option Scene) (sched : List ℚ) (f : AcFrame)
    (st : DriverState) : DriverState × StepLog :=
  if f.outExists then (st, ⟨false, FrameResult.skipped⟩)
  else
    let sat_time := get_sat_time f.cur_time sched
    let st' :=
      if sat_time = st.prev_time then st
      else
        let s := loader sat_time
        let s2 := match s, st.old_scn with
          | none, some o => some o
          | s, _ => s
        { prev_time := sat_time, old_scn := s2, sat_img := s2 }
    let called := decide (¬ sat_time = st.prev_time)
    match st'.sat_img with
    | none => (st', ⟨called, FrameResult.crashedNoneScene⟩)
    | some _ => (st', ⟨called, FrameResult.crashedSetupPlot⟩)

/-- The frame loop (Main.py line 99): iterate `procFrame` over the
frames; an iteration that raises aborts the run, so only skipped
iterations let the loop continue. -/
def runDriver (loader : DT → Option Scene) (sched : List ℚ) :
    List AcFrame → DriverState → DriverState × List StepLog
  | [], st => (st, [])
  | f :: fs, st =>
    if (procFrame loader sched f st).2.result = FrameResult.skipped then
      ((runDriver loader sched fs (procFrame loader sched f st).1).1,
        (procFrame loader sched f st).2 ::
          (runDriver loader sched fs (procFrame loader sched f st).1).2)
    else
      ((procFrame loader sched f st).1, [(procFrame loader sched f st).2])

/-! ### Helper lemmas about the scan of `get_sat_time`'s loop -/

lemma snapEntry_mem : ∀ (l : List ℚ) (m e : ℚ), snapEntry l m = some e → e ∈ l := by
  intro l
  induction l with
  | nil => intro m e h; simp [snapEntry] at h
  | cons a t ih =>
    intro m e h
    cases t with
    | nil => simp [snapEntry] at h
    | cons b r =>
      by_cases hb : m < b
      · simp [snapEntry, hb] at h
        subst h
        exact List.mem_cons_self _ _
      · have h' : snapEntry (b :: r) m = some e := by
          simpa [snapEntry, hb] using h
        exact List.mem_cons_of_mem _ (ih m e h')

lemma snapEntry_le : ∀ (l : List ℚ) (m : ℚ),
    (∀ a, l.head? = some a → a ≤ m) →
    ∀ e, snapEntry l m = some e → e ≤ m := by
  intro l
  induction l with
  | nil => intro m _ e h; simp [snapEntry] at h
  | cons a t ih =>
    intro m hhd e h
    cases t with
    | nil => simp [snapEntry] at h
    | cons b r =>
      by_cases hb : m < b
      · simp [snapEntry, hb] at h
        subst h
        exact hhd _ rfl
      · have h' : snapEntry (b :: r) m = some e := by
          simpa [snapEntry, hb] using h
        refine ih m ?_ e h'
        intro x hx
        simp at hx
        subst hx
        exact not_lt.mp hb

lemma snapEntry_sorted_mem (l : List ℚ) (m : ℚ)
    (hs : l.Sorted (· ≤ ·)) (hm : m ∈ l) :
    snapEntry l m = some m ∨ snapEntry l m = none := by
  induction l with
  | nil => simp at hm
  | cons a t ih =>
    cases t with
    | nil => right; rfl
    | cons b r =>
      rw [List.sorted_cons] at hs
      by_cases hb : m < b
      · left
        have ham : a = m := by
          rcases List.mem_cons.mp hm with h | h
          · exact h.symm
          · exfalso
            have hbm : b ≤ m := by
              rcases List.mem_cons.mp h with h' | h'
              · exact le_of_eq h'.symm
              · exact (List.sorted_cons.mp hs.2).1 m h'
            exact absurd hb (not_lt.mpr hbm)
        simp [snapEntry, hb, ham]
      · have hm' : m ∈ b :: r := by
          rcases List.mem_cons.mp hm with h | h
          · subst h
            have : b ≤ m := not_lt.mp hb
            have : m = b := le_antisymm (hs.1 b (List.mem_cons_self _ _)) this
            rw [this]
            exact List.mem_cons_self _ _
          · exact h
        have := ih hs.2 hm'
        simpa [snapEntry, hb] using this

lemma snapEntry_getD : ∀ (l : List ℚ) (m : ℚ) (j : ℕ), 1 ≤ j → j < l.length →
    m < l.getD j 0 → (∀ k, 1 ≤ k → k < j → l.getD k 0 ≤ m) →
    snapEntry l m = some (l.getD (j - 1) 0) := by
  intro l
  induction l with
  | nil =>
    intro m j h1 h2
    simp at h2
  | cons a t ih =>
    intro m j h1 hlen hj hmin
    cases t with
    | nil =>
      simp at hlen
      omega
    | cons b r =>
      by_cases hb : m < b
      · have hj1 : j = 1 := by
          by_contra hne
          have h2 : 2 ≤ j := by omega
          have hble : (a :: b :: r).getD 1 0 ≤ m := hmin 1 le_rfl (by omega)
          simp [List.getD_cons_succ, List.getD_cons_zero] at hble
          exact absurd hb (not_lt.mpr hble)
        subst hj1
        simp [snapEntry, hb]
      · have hj2 : 2 ≤ j := by
          by_contra hne
          have hj1 : j = 1 := by omega
          subst hj1
          simp [List.getD_cons_succ, List.getD_cons_zero] at hj
          exact hb hj
        have hrec := ih m (j - 1) (by omega)
          (by simp at hlen ⊢; omega)
          (by
            have : (a :: b :: r).getD j 0 = (b :: r).getD (j - 1) 0 := by
              obtain ⟨j', rfl⟩ : ∃ j', j = j' + 1 := ⟨j - 1, by omega⟩
              simp [List.getD_cons_succ]
            rw [this] at hj
            exact hj)
          (by
            intro k hk1 hkj
            have := hmin (k + 1) (by omega) (by omega)
            simpa [List.getD_cons_succ] using this)
        have hstep : snapEntry (a :: b :: r) m = snapEntry (b :: r) m := by
          simp [snapEntry, hb]
        rw [hstep, hrec]
        congr 1
        obtain ⟨j', rfl⟩ : ∃ j', j = j' + 2 := ⟨j - 2, by omega⟩
        simp [List.getD_cons_succ]

lemma pyInt_of_nonneg (q : ℚ) (h : 0 ≤ q) : pyInt q = ⌊q⌋ := if_pos h

/-- Reduction of `get_sat_time` when the loop breaks at a schedule entry. -/
lemma get_sat_time_eq_snap (t : DT) (sched : List ℚ) (e : ℚ)
    (h : snapEntry sched ((t.minute : ℚ) + (t.second : ℚ) / 60) = some e) :
    get_sat_time t sched = snapResult t e := by
  unfold get_sat_time
  rw [h]

/-- Reduction of `get_sat_time` when the loop falls through. -/
lemma get_sat_time_eq_pass (t : DT) (sched : List ℚ)
    (h : snapEntry sched ((t.minute : ℚ) + (t.second : ℚ) / 60) = none) :
    get_sat_time t sched = { t with microsecond := 0 } := by
  unfold get_sat_time
  rw [h]

/-- The fractional minute of a timestamp with a valid seconds field has
floor equal to the minute field. -/
lemma floor_fracmin (tm ts : ℕ) (hts : ts < 60) :
    ⌊(tm : ℚ) + (ts : ℚ) / 60⌋ = (tm : ℤ) := by
  rw [Int.floor_eq_iff]
  constructor
  · push_cast
    have : (0:ℚ) ≤ (ts : ℚ) / 60 := by positivity
    linarith
  · push_cast
    have : (ts : ℚ) / 60 < 1 := by
      rw [div_lt_one (by norm_num : (0:ℚ) < 60)]
      exact_mod_cast hts
    linarith

section Scratch

example : get_sat_time ⟨2020, 1, 1, 12, 25, 30, 0⟩ [0, 10, 20, 30, 40, 50]
    = ⟨2020, 1, 1, 12, 20, 0, 0⟩ := by
  norm_num [get_sat_time, snapEntry, snapResult, pyInt]
  decide

example : get_sat_time ⟨2020, 1, 1, 12, 55, 30, 250⟩ [0, 10, 20, 30, 40, 50]
    = ⟨2020, 1, 1, 12, 55, 30, 0⟩ := by
  norm_num [get_sat_time, snapEntry, snapResult, pyInt]

example : sat_timesteps "AGR" "FD" = Sum.inl (-1) := by
  simp [sat_timesteps]

example : dateRange 60 200 30 = [60, 90, 120, 150, 180] := by
  simp [dateRange]

example : interp_times [70, 200] 30 = [60, 90, 120, 150, 180] := by
  simp [interp_times, truncMin, dateRange]

example : calc_bounds_traj [⟨10, 0⟩, ⟨12, 0⟩] (1/10) (1/10)
    = [0, 0, 49/5, 61/5] := by
  norm_num [calc_bounds_traj, colMin, colMax]

example : extentOK (calc_bounds_traj [⟨10, 5⟩] (1/10) (1/10)) = false := by
  norm_num [calc_bounds_traj, colMin, colMax, extentOK]

end Scratch

/-! ### Claim theorems: the scan-time mapper -/

/-- C4: for every timestamp and ascending schedule, if some schedule entry
at index at least 1 exceeds the fractional minute `m`, the mapped scan
start keeps the date and hour and takes minute/second from the entry
preceding the first entry exceeding `m`, sub-second zeroed; in particular
for the full-disk schedule, 12:25:30 maps to 12:20:00. -/
theorem get_sat_time_prev_entry :
    (∀ (t : DT) (sched : List ℚ) (j : ℕ), sched.Sorted (· ≤ ·) →
      1 ≤ j → j < sched.length →
      (t.minute : ℚ) + (t.second : ℚ) / 60 < sched.getD j 0 →
      (∀ k, 1 ≤ k → k < j →
        sched.getD k 0 ≤ (t.minute : ℚ) + (t.second : ℚ) / 60) →
      get_sat_time t sched = snapResult t (sched.getD (j - 1) 0))
    ∧ get_sat_time ⟨2020, 1, 1, 12, 25, 30, 0⟩ [0, 10, 20, 30, 40, 50]
        = ⟨2020, 1, 1, 12, 20, 0, 0⟩ := by
  constructor
  · intro t sched j _hsort h1 hlen hj hmin
    exact get_sat_time_eq_snap t sched _
      (snapEntry_getD sched _ j h1 hlen hj hmin)
  · norm_num [get_sat_time, snapEntry, snapResult, pyInt]
    decide

/-- Witness for C4 at a concrete input: 03:44:10 with the full-disk
schedule snaps to the entry 40 preceding the first entry 50 that exceeds
the fractional minute. -/
theorem get_sat_time_prev_entry_witness :
    get_sat_time ⟨2021, 6, 7, 3, 44, 10, 123⟩ [0, 10, 20, 30, 40, 50]
      = snapResult ⟨2021, 6, 7, 3, 44, 10, 123⟩ 40 := by
  have h := get_sat_time_prev_entry.1 ⟨2021, 6, 7, 3, 44, 10, 123⟩
    [0, 10, 20, 30, 40, 50] 5
    (by norm_num [List.sorted_cons])
    (by norm_num) (by norm_num)
    (by norm_num [List.getD])
    (by
      intro k hk1 hk5
      interval_cases k <;> norm_num [List.getD])
  simpa using h

/-- C7: a timestamp whose minute/second already sit exactly on an entry of
an ascending schedule is returned unchanged by the mapper, with only the
sub-second part zeroed. -/
theorem get_sat_time_boundary_fixed (t : DT) (sched : List ℚ)
    (hsort : sched.Sorted (· ≤ ·)) (hsec : t.second < 60)
    (hmem : ((t.minute : ℚ) + (t.second : ℚ) / 60) ∈ sched) :
    get_sat_time t sched = { t with microsecond := 0 } := by
  have hm0 : (0:ℚ) ≤ (t.minute : ℚ) + (t.second : ℚ) / 60 := by positivity
  rcases snapEntry_sorted_mem sched _ hsort hmem with hsnap | hsnap
  · rw [get_sat_time_eq_snap t sched _ hsnap]
    unfold snapResult
    rw [pyInt_of_nonneg _ hm0, floor_fracmin t.minute t.second hsec]
    have harg : ((t.minute : ℚ) + (t.second : ℚ) / 60 - ((t.minute : ℤ) : ℚ))
        * 60 = (t.second : ℚ) := by
      push_cast
      ring
    rw [harg, pyInt_of_nonneg _ (by positivity), Int.floor_natCast]
    simp
  · exact get_sat_time_eq_pass t sched hsnap

/-- Witness for C7 at a concrete input: 12:20:00 is a boundary of the
full-disk schedule and maps to itself. -/
theorem get_sat_time_boundary_fixed_witness :
    get_sat_time ⟨2020, 1, 1, 12, 20, 0, 44⟩ [0, 10, 20, 30, 40, 50]
      = ⟨2020, 1, 1, 12, 20, 0, 0⟩ := by
  have h := get_sat_time_boundary_fixed ⟨2020, 1, 1, 12, 20, 0, 44⟩
    [0, 10, 20, 30, 40, 50]
    (by norm_num [List.sorted_cons])
    (by norm_num)
    (by norm_num)
  simpa using h

/-! ### Helper lemmas about column minima and maxima -/

lemma foldl_min_le_init : ∀ (r : List ℚ) (x : ℚ), List.foldl min x r ≤ x := by
  intro r
  induction r with
  | nil => intro x; simp
  | cons a t ih =>
    intro x
    simp only [List.foldl_cons]
    exact le_trans (ih (min x a)) (min_le_left x a)

lemma foldl_min_le_mem : ∀ (r : List ℚ) (x y : ℚ), y ∈ r →
    List.foldl min x r ≤ y := by
  intro r
  induction r with
  | nil => intro x y h; simp at h
  | cons a t ih =>
    intro x y h
    rcases List.mem_cons.mp h with rfl | h
    · simp only [List.foldl_cons]
      exact le_trans (foldl_min_le_init t (min x y)) (min_le_right x y)
    · exact ih (min x a) y h

lemma foldl_min_mem : ∀ (r : List ℚ) (x : ℚ),
    List.foldl min x r = x ∨ List.foldl min x r ∈ r := by
  intro r
  induction r with
  | nil => intro x; left; rfl
  | cons a t ih =>
    intro x
    simp only [List.foldl_cons]
    rcases ih (min x a) with h | h
    · rcases min_choice x a with hc | hc
      · left; rw [h, hc]
      · right; rw [h, hc]; exact List.mem_cons_self _ _
    · right; exact List.mem_cons_of_mem _ h

lemma foldl_max_le_init : ∀ (r : List ℚ) (x : ℚ), x ≤ List.foldl max x r := by
  intro r
  induction r with
  | nil => intro x; simp
  | cons a t ih =>
    intro x
    simp only [List.foldl_cons]
    exact le_trans (le_max_left x a) (ih (max x a))

lemma foldl_max_le_mem : ∀ (r : List ℚ) (x y : ℚ), y ∈ r →
    y ≤ List.foldl max x r := by
  intro r
  induction r with
  | nil => intro x y h; simp at h
  | cons a t ih =>
    intro x y h
    rcases List.mem_cons.mp h with rfl | h
    · simp only [List.foldl_cons]
      exact le_trans (le_max_right x y) (foldl_max_le_init t (max x y))
    · exact ih (max x a) y h

lemma foldl_max_mem : ∀ (r : List ℚ) (x : ℚ),
    List.foldl max x r = x ∨ List.foldl max x r ∈ r := by
  intro r
  induction r with
  | nil => intro x; left; rfl
  | cons a t ih =>
    intro x
    simp only [List.foldl_cons]
    rcases ih (max x a) with h | h
    · rcases max_choice x a with hc | hc
      · left; rw [h, hc]
      · right; rw [h, hc]; exact List.mem_cons_self _ _
    · right; exact List.mem_cons_of_mem _ h

/-- `colMin` of a nonempty column is an element and a lower bound. -/
lemma colMin_spec (l : List ℚ) (hl : l ≠ []) :
    colMin l ∈ l ∧ ∀ y ∈ l, colMin l ≤ y := by
  cases l with
  | nil => exact absurd rfl hl
  | cons x r =>
    constructor
    · rcases foldl_min_mem r x with h | h
      · rw [colMin, h]; exact List.mem_cons_self _ _
      · exact List.mem_cons_of_mem _ h
    · intro y hy
      rcases List.mem_cons.mp hy with rfl | hy
      · exact foldl_min_le_init r y
      · exact foldl_min_le_mem r x y hy

/-- `colMax` of a nonempty column is an element and an upper bound. -/
lemma colMax_spec (l : List ℚ) (hl : l ≠ []) :
    colMax l ∈ l ∧ ∀ y ∈ l, y ≤ colMax l := by
  cases l with
  | nil => exact absurd rfl hl
  | cons x r =>
    constructor
    · rcases foldl_max_mem r x with h | h
      · rw [colMax, h]; exact List.mem_cons_self _ _
      · exact List.mem_cons_of_mem _ h
    · intro y hy
      rcases List.mem_cons.mp hy with rfl | hy
      · exact foldl_max_le_init r y
      · exact foldl_max_le_mem r x y hy

/-! ### Claim theorems: bounding boxes -/

/-- C8: the trajectory bounding box takes the min/max of latitude and
longitude over all points and expands each axis by the margin fraction
times the axis span on both sides; in particular latitudes 10 and 12 with
margin fraction 1/10 yield the latitude range 49/5 to 61/5
(9.8 to 12.2). -/
theorem calc_bounds_traj_spec :
    (∀ (traj : List AcPoint) (a b : ℚ), traj ≠ [] → 0 ≤ a → 0 ≤ b →
      ∃ lonMin lonMax latMin latMax,
        lonMin ∈ traj.map AcPoint.lon ∧ lonMax ∈ traj.map AcPoint.lon ∧
        latMin ∈ traj.map AcPoint.lat ∧ latMax ∈ traj.map AcPoint.lat ∧
        (∀ p ∈ traj, lonMin ≤ p.lon ∧ p.lon ≤ lonMax ∧
          latMin ≤ p.lat ∧ p.lat ≤ latMax) ∧
        calc_bounds_traj traj a b =
          [lonMin - (lonMax - lonMin) * b, lonMax + (lonMax - lonMin) * b,
           latMin - (latMax - latMin) * a, latMax + (latMax - latMin) * a])
    ∧ calc_bounds_traj [⟨10, 0⟩, ⟨12, 1⟩] (1/10) (1/10)
        = [-1/10, 11/10, 49/5, 61/5] := by
  constructor
  · intro traj a b htraj _ha _hb
    have hlat : traj.map AcPoint.lat ≠ [] := by
      simpa using htraj
    have hlon : traj.map AcPoint.lon ≠ [] := by
      simpa using htraj
    obtain ⟨hlonmin_mem, hlonmin_le⟩ := colMin_spec _ hlon
    obtain ⟨hlonmax_mem, hlonmax_le⟩ := colMax_spec _ hlon
    obtain ⟨hlatmin_mem, hlatmin_le⟩ := colMin_spec _ hlat
    obtain ⟨hlatmax_mem, hlatmax_le⟩ := colMax_spec _ hlat
    refine ⟨colMin (traj.map AcPoint.lon), colMax (traj.map AcPoint.lon),
      colMin (traj.map AcPoint.lat), colMax (traj.map AcPoint.lat),
      hlonmin_mem, hlonmax_mem, hlatmin_mem, hlatmax_mem, ?_, ?_⟩
    · intro p hp
      exact ⟨hlonmin_le _ (List.mem_map_of_mem _ hp),
        hlonmax_le _ (List.mem_map_of_mem _ hp),
        hlatmin_le _ (List.mem_map_of_mem _ hp),
        hlatmax_le _ (List.mem_map_of_mem _ hp)⟩
    · rfl
  · norm_num [calc_bounds_traj, colMin, colMax]

/-- Witness for C8 at a concrete input. -/
theorem calc_bounds_traj_spec_witness :
    ∃ lonMin lonMax latMin latMax,
      lonMin ∈ ([⟨10, 0⟩, ⟨12, 1⟩] : List AcPoint).map AcPoint.lon ∧
      lonMax ∈ ([⟨10, 0⟩, ⟨12, 1⟩] : List AcPoint).map AcPoint.lon ∧
      latMin ∈ ([⟨10, 0⟩, ⟨12, 1⟩] : List AcPoint).map AcPoint.lat ∧
      latMax ∈ ([⟨10, 0⟩, ⟨12, 1⟩] : List AcPoint).map AcPoint.lat ∧
      (∀ p ∈ ([⟨10, 0⟩, ⟨12, 1⟩] : List AcPoint), lonMin ≤ p.lon ∧
        p.lon ≤ lonMax ∧ latMin ≤ p.lat ∧ p.lat ≤ latMax) ∧
      calc_bounds_traj [⟨10, 0⟩, ⟨12, 1⟩] (1/10) (1/10)
        = [lonMin - (lonMax - lonMin) * (1/10),
           lonMax + (lonMax - lonMin) * (1/10),
           latMin - (latMax - latMin) * (1/10),
           latMax + (latMax - latMin) * (1/10)] :=
  calc_bounds_traj_spec.1 [⟨10, 0⟩, ⟨12, 1⟩] (1/10) (1/10)
    (by simp) (by norm_num) (by norm_num)

/-- C9 counterexample: a single-point trajectory (constant latitude and
longitude) produces an extent with equal bounds on both axes, so the
strict invariant lon_min < lon_max and lat_min < lat_max fails. -/
theorem extent_invariant_counterexample :
    extentOK (calc_bounds_traj [⟨10, 5⟩] (1/10) (1/10)) = false := by
  norm_num [calc_bounds_traj, colMin, colMax, extentOK]

/-- C9 amended: the strict GeoExtent invariant holds for the trajectory
variant whenever the trajectory contains two distinct latitudes and two
distinct longitudes and the margins are nonnegative, and for the
single-point variant whenever the fixed margins are positive. -/
theorem extent_invariant_amended :
    (∀ (traj : List AcPoint) (a b : ℚ), 0 ≤ a → 0 ≤ b →
      (∃ p ∈ traj, ∃ q ∈ traj, p.lat < q.lat) →
      (∃ p ∈ traj, ∃ q ∈ traj, p.lon < q.lon) →
      extentOK (calc_bounds_traj traj a b) = true)
    ∧ (∀ (traj : List AcPoint) (a b : ℚ), 0 < a → 0 < b →
      extentOK (calc_bounds_sp traj a b) = true) := by
  constructor
  · intro traj a b ha hb hlat hlon
    obtain ⟨p, hp, q, hq, hpq⟩ := hlat
    obtain ⟨p', hp', q', hq', hpq'⟩ := hlon
    have htraj : traj ≠ [] := by
      intro h
      subst h
      simp at hp
    have hlatne : traj.map AcPoint.lat ≠ [] := by simpa using htraj
    have hlonne : traj.map AcPoint.lon ≠ [] := by simpa using htraj
    obtain ⟨_, hlatmin_le⟩ := colMin_spec _ hlatne
    obtain ⟨_, hlatmax_le⟩ := colMax_spec _ hlatne
    obtain ⟨_, hlonmin_le⟩ := colMin_spec _ hlonne
    obtain ⟨_, hlonmax_le⟩ := colMax_spec _ hlonne
    have h1 : colMin (traj.map AcPoint.lat) < colMax (traj.map AcPoint.lat) :=
      lt_of_le_of_lt (hlatmin_le _ (List.mem_map_of_mem _ hp))
        (lt_of_lt_of_le hpq (hlatmax_le _ (List.mem_map_of_mem _ hq)))
    have h2 : colMin (traj.map AcPoint.lon) < colMax (traj.map AcPoint.lon) :=
      lt_of_le_of_lt (hlonmin_le _ (List.mem_map_of_mem _ hp'))
        (lt_of_lt_of_le hpq' (hlonmax_le _ (List.mem_map_of_mem _ hq')))
    have hma : 0 ≤ (colMax (traj.map AcPoint.lat)
        - colMin (traj.map AcPoint.lat)) * a := by
      have := le_of_lt h1
      nlinarith
    have hmb : 0 ≤ (colMax (traj.map AcPoint.lon)
        - colMin (traj.map AcPoint.lon)) * b := by
      have := le_of_lt h2
      nlinarith
    simp only [calc_bounds_traj, extentOK, Bool.and_eq_true, decide_eq_true_eq]
    constructor <;> linarith
  · intro traj a b ha hb
    simp only [calc_bounds_sp, extentOK, Bool.and_eq_true, decide_eq_true_eq]
    constructor <;> linarith

/-- Witness for the amended C9 at concrete inputs. -/
theorem extent_invariant_amended_witness :
    extentOK (calc_bounds_traj [⟨10, 0⟩, ⟨12, 1⟩] (1/10) (1/10)) = true ∧
    extentOK (calc_bounds_sp [⟨10, 5⟩] 1 1) = true :=
  ⟨extent_invariant_amended.1 [⟨10, 0⟩, ⟨12, 1⟩] (1/10) (1/10)
      (by norm_num) (by norm_num)
      ⟨⟨10, 0⟩, by simp, ⟨12, 1⟩, by simp, by norm_num⟩
      ⟨⟨10, 0⟩, by simp, ⟨12, 1⟩, by simp, by norm_num⟩,
    extent_invariant_amended.2 [⟨10, 5⟩] 1 1 (by norm_num) (by norm_num)⟩

/-! ### Claim theorems: unknown sensor/mode handling -/

/-- C6 counterexample: for the unknown pair (AGR, FD) both table lookups
return the integer sentinel -1 as a perfectly normal return value; no
error is produced by the lookup itself. -/
theorem sat_timesteps_sentinel_counterexample :
    sat_timesteps "AGR" "FD" = Sum.inl (-1) ∧
    sat_timestep_time "AGR" "FD" = (-1 : ℚ) := by
  constructor
  · simp [sat_timesteps]
  · simp [sat_timestep_time]

/-- C6 amended: the schedule lookup itself returns the sentinel -1 for an
unknown pair; the run then fails (before any frame is processed, since
`get_startend` runs ahead of the frame loop) when `get_sat_time` calls
`len` on that integer, raising `TypeError`. -/
theorem unknown_pair_fatal_before_loop (t0 : DT) (s mo : String)
    (h : sat_timesteps s mo = Sum.inl (-1)) :
    get_startend_start t0 s mo =
      Except.error "TypeError: object of type int has no len()" := by
  unfold get_startend_start get_sat_time_checked
  rw [h]

/-- Witness for the amended C6 at the concrete unknown pair (AGR, FD). -/
theorem unknown_pair_fatal_before_loop_witness :
    get_startend_start ⟨2020, 1, 1, 12, 0, 0, 0⟩ "AGR" "FD" =
      Except.error "TypeError: object of type int has no len()" :=
  unknown_pair_fatal_before_loop ⟨2020, 1, 1, 12, 0, 0, 0⟩ "AGR" "FD"
    (by simp [sat_timesteps])

/-! ### Helper lemmas about the resampling grid -/

lemma dateRange_cons (start stop freq : Nat) (hf : freq ≠ 0)
    (hle : start ≤ stop) :
    dateRange start stop freq = start :: dateRange (start + freq) stop freq := by
  rw [dateRange]
  simp [hf, hle]

lemma dateRange_nil (start stop freq : Nat) (hgt : stop < start) :
    dateRange start stop freq = [] := by
  rw [dateRange]
  simp [Nat.not_le_of_lt hgt]

lemma dateRange_closed_aux (freq : Nat) (hf : 0 < freq) :
    ∀ (n start stop : Nat), stop - start ≤ n → start ≤ stop →
    dateRange start stop freq =
      (List.range ((stop - start) / freq + 1)).map (fun k => start + freq * k) := by
  intro n
  induction n with
  | zero =>
    intro start stop hn hle
    have hss : stop = start := by omega
    subst hss
    rw [dateRange_cons _ _ _ (by omega) hle,
      dateRange_nil _ _ _ (by omega)]
    simp [List.range_succ]
  | succ n ih =>
    intro start stop hn hle
    rw [dateRange_cons _ _ _ (by omega) hle]
    by_cases h2 : start + freq ≤ stop
    · rw [ih (start + freq) stop (by omega) h2]
      have hdiv : (stop - start) / freq = (stop - (start + freq)) / freq + 1 := by
        have hsplit : stop - start = (stop - (start + freq)) + freq := by omega
        rw [hsplit, Nat.add_div_right _ hf]
      rw [hdiv]
      conv_rhs => rw [List.range_succ_eq_map]
      simp only [List.map_cons, List.map_map, Nat.mul_zero, Nat.add_zero]
      congr 1
      apply List.map_congr_left
      intro k _
      simp only [Function.comp_apply, Nat.succ_eq_add_one]
      ring
    · rw [dateRange_nil _ _ _ (by omega)]
      have hdiv : (stop - start) / freq = 0 := Nat.div_eq_of_lt (by omega)
      rw [hdiv]
      simp [List.range_succ]

/-- Closed form of the output grid: an arithmetic progression from `start`
with step `freq` and `(stop - start) / freq + 1` terms. -/
lemma dateRange_closed (start stop freq : Nat) (hf : 0 < freq)
    (hle : start ≤ stop) :
    dateRange start stop freq =
      (List.range ((stop - start) / freq + 1)).map (fun k => start + freq * k) :=
  dateRange_closed_aux freq hf (stop - start) start stop le_rfl hle

lemma truncMin_le (t : Nat) : truncMin t ≤ t := Nat.div_mul_le_self t 60

lemma chain_head_le_getLastD :
    ∀ (r : List Nat) (x d : Nat), List.Chain' (· < ·) (x :: r) →
    x ≤ (x :: r).getLastD d := by
  intro r
  induction r with
  | nil => intro x d _; rfl
  | cons y r' ih =>
    intro x d hch
    rw [List.getLastD_cons]
    have hxy : x < y := List.chain'_cons.mp hch |>.1
    have := ih y x (List.chain'_cons.mp hch).2
    calc x ≤ y := le_of_lt hxy
      _ ≤ (y :: r').getLastD x := this

/-! ### Claim theorem: the resampling grid -/

/-- C3: for an input of at least two strictly increasing timestamps and a
positive cadence, the resampled grid is the arithmetic progression that
starts at the first timestamp truncated to zero seconds, steps by the
cadence, never passes the last input timestamp, and has exactly
`(last - truncated_first) / cadence + 1` entries. -/
theorem interp_times_spec (ts : List Nat) (freq : Nat)
    (hlen : 2 ≤ ts.length) (hinc : List.Chain' (· < ·) ts) (hf : 0 < freq) :
    interp_times ts freq =
      (List.range ((ts.getLastD 0 - truncMin ts.headI) / freq + 1)).map
        (fun k => truncMin ts.headI + freq * k) ∧
    (∀ x ∈ interp_times ts freq, x ≤ ts.getLastD 0) ∧
    (interp_times ts freq).headI = truncMin ts.headI ∧
    (interp_times ts freq).length =
      (ts.getLastD 0 - truncMin ts.headI) / freq + 1 := by
  obtain ⟨x, r, rfl⟩ : ∃ x r, ts = x :: r := by
    cases ts with
    | nil => simp at hlen
    | cons x r => exact ⟨x, r, rfl⟩
  have hle : truncMin (x :: r).headI ≤ (x :: r).getLastD 0 :=
    le_trans (truncMin_le _) (chain_head_le_getLastD r x 0 hinc)
  have hclosed : interp_times (x :: r) freq =
      (List.range (((x :: r).getLastD 0 - truncMin (x :: r).headI) / freq + 1)).map
        (fun k => truncMin (x :: r).headI + freq * k) := by
    unfold interp_times
    exact dateRange_closed _ _ _ hf hle
  refine ⟨hclosed, ?_, ?_, ?_⟩
  · intro v hv
    rw [hclosed] at hv
    simp only [List.mem_map, List.mem_range] at hv
    obtain ⟨k, hk, rfl⟩ := hv
    have hk' : k ≤ ((x :: r).getLastD 0 - truncMin (x :: r).headI) / freq := by
      omega
    have h1 : freq * k ≤
        freq * (((x :: r).getLastD 0 - truncMin (x :: r).headI) / freq) :=
      Nat.mul_le_mul_left freq hk'
    have h2 : freq * (((x :: r).getLastD 0 - truncMin (x :: r).headI) / freq) ≤
        (x :: r).getLastD 0 - truncMin (x :: r).headI := by
      rw [Nat.mul_comm]
      exact Nat.div_mul_le_self _ _
    omega
  · rw [hclosed, List.range_succ_eq_map]
    simp
  · rw [hclosed]
    simp

/-- Witness for C3 at a concrete input: timestamps 70 and 200 (epoch
seconds) at a 30-second cadence give the grid starting at 60. -/
theorem interp_times_spec_witness :
    interp_times [70, 200] 30 =
      (List.range ((([70, 200] : List Nat).getLastD 0
          - truncMin ([70, 200] : List Nat).headI) / 30 + 1)).map
        (fun k => truncMin ([70, 200] : List Nat).headI + 30 * k) ∧
    (∀ x ∈ interp_times [70, 200] 30, x ≤ ([70, 200] : List Nat).getLastD 0) ∧
    (interp_times [70, 200] 30).headI = truncMin ([70, 200] : List Nat).headI ∧
    (interp_times [70, 200] 30).length =
      (([70, 200] : List Nat).getLastD 0
        - truncMin ([70, 200] : List Nat).headI) / 30 + 1 :=
  interp_times_spec [70, 200] 30 (by decide)
    (by norm_num [List.chain'_cons]) (by decide)

/-! ### Helper lemmas about the schedule table -/

lemma head?_range_map (n : Nat) (f : Nat → ℚ) (hn : 0 < n) :
    ((List.range n).map f).head? = some (f 0) := by
  obtain ⟨k, rfl⟩ : ∃ k, n = k + 1 := ⟨n - 1, by omega⟩
  rw [List.range_succ_eq_map]
  simp

lemma schedA_ok : (([0, 10, 20, 30, 40, 50] : List ℚ).head? = some 0) ∧
    ∀ e ∈ ([0, 10, 20, 30, 40, 50] : List ℚ), 0 ≤ e := by
  constructor
  · rfl
  · intro e he
    simp [List.mem_cons] at he
    rcases he with rfl | rfl | rfl | rfl | rfl | rfl <;> norm_num

lemma schedB_ok :
    (((List.range 25).map (fun (k : ℕ) => (k : ℚ) * 5 / 2)).head? = some 0) ∧
    ∀ e ∈ (List.range 25).map (fun (k : ℕ) => (k : ℚ) * 5 / 2), 0 ≤ e := by
  constructor
  · rw [head?_range_map _ _ (by norm_num)]
    norm_num
  · intro e he
    simp only [List.mem_map, List.mem_range] at he
    obtain ⟨k, _, rfl⟩ := he
    positivity

lemma schedC_ok :
    (((List.range 12).map (fun (k : ℕ) => (k : ℚ) * 5)).head? = some 0) ∧
    ∀ e ∈ (List.range 12).map (fun (k : ℕ) => (k : ℚ) * 5), 0 ≤ e := by
  constructor
  · rw [head?_range_map _ _ (by norm_num)]
    norm_num
  · intro e he
    simp only [List.mem_map, List.mem_range] at he
    obtain ⟨k, _, rfl⟩ := he
    positivity

lemma schedD_ok :
    (((List.range 60).map (fun (k : ℕ) => (k : ℚ))).head? = some 0) ∧
    ∀ e ∈ (List.range 60).map (fun (k : ℕ) => (k : ℚ)), 0 ≤ e := by
  constructor
  · rw [head?_range_map _ _ (by norm_num)]
    norm_num
  · intro e he
    simp only [List.mem_map, List.mem_range] at he
    obtain ⟨k, _, rfl⟩ := he
    positivity

/-- Every schedule the static table produces starts at minute 0 and has
only nonnegative entries. -/
lemma sat_timesteps_sched_ok (s mo : String) (sched : List ℚ)
    (h : sat_timesteps s mo = Sum.inr sched) :
    sched.head? = some 0 ∧ ∀ e ∈ sched, 0 ≤ e := by
  unfold sat_timesteps at h
  split_ifs at h <;>
    first
      | exact Sum.noConfusion h
      | (injection h with h2
         subst h2
         first
           | exact schedA_ok
           | exact schedB_ok
           | exact schedC_ok
           | exact schedD_ok)

/-! ### Claim theorem: the mapped scan start never lies after the input -/

/-- C10: with any schedule produced by the table and a valid seconds
field, the mapped scan start keeps the date and hour, has microsecond 0,
is never later than the input (lexicographically on minute, second,
microsecond), and is either the input with microseconds zeroed
(fall-through) or built from a schedule entry not exceeding the input's
fractional minute. -/
theorem get_sat_time_not_later (t : DT) (s mo : String) (sched : List ℚ)
    (htab : sat_timesteps s mo = Sum.inr sched) (hsec : t.second < 60) :
    (get_sat_time t sched).year = t.year ∧
    (get_sat_time t sched).month = t.month ∧
    (get_sat_time t sched).day = t.day ∧
    (get_sat_time t sched).hour = t.hour ∧
    (get_sat_time t sched).microsecond = 0 ∧
    ((get_sat_time t sched).minute < t.minute ∨
      ((get_sat_time t sched).minute = t.minute ∧
        ((get_sat_time t sched).second < t.second ∨
          ((get_sat_time t sched).second = t.second ∧
            (get_sat_time t sched).microsecond ≤ t.microsecond)))) ∧
    (get_sat_time t sched = { t with microsecond := 0 } ∨
      ∃ e ∈ sched, 0 ≤ e ∧ e ≤ (t.minute : ℚ) + (t.second : ℚ) / 60 ∧
        get_sat_time t sched = snapResult t e) := by
  obtain ⟨hhead, hnn⟩ := sat_timesteps_sched_ok s mo sched htab
  cases hsnap : snapEntry sched ((t.minute : ℚ) + (t.second : ℚ) / 60) with
  | none =>
    rw [get_sat_time_eq_pass t sched hsnap]
    exact ⟨rfl, rfl, rfl, rfl, rfl,
      Or.inr ⟨rfl, Or.inr ⟨rfl, Nat.zero_le _⟩⟩, Or.inl rfl⟩
  | some e =>
    rw [get_sat_time_eq_snap t sched e hsnap]
    have hmem := snapEntry_mem sched _ e hsnap
    have he0 : 0 ≤ e := hnn e hmem
    have hle : e ≤ (t.minute : ℚ) + (t.second : ℚ) / 60 := by
      refine snapEntry_le sched _ ?_ e hsnap
      intro a ha
      rw [hhead] at ha
      simp at ha
      subst ha
      positivity
    refine ⟨rfl, rfl, rfl, rfl, rfl, ?_, Or.inr ⟨e, hmem, he0, hle, rfl⟩⟩
    have hfe : pyInt e = ⌊e⌋ := pyInt_of_nonneg e he0
    have hfloorm : ⌊(t.minute : ℚ) + (t.second : ℚ) / 60⌋ = (t.minute : ℤ) :=
      floor_fracmin _ _ hsec
    have h1 : ⌊e⌋ ≤ (t.minute : ℤ) := by
      rw [← hfloorm]
      exact Int.floor_le_floor hle
    have h2 : (0:ℤ) ≤ ⌊e⌋ := Int.floor_nonneg.mpr he0
    by_cases hcase : ⌊e⌋ = (t.minute : ℤ)
    · right
      have hfloorle : (⌊e⌋ : ℚ) ≤ e := Int.floor_le e
      have harg0 : (0:ℚ) ≤ (e - ((pyInt e : ℤ) : ℚ)) * 60 := by
        rw [hfe]
        have : (0:ℚ) ≤ e - (⌊e⌋ : ℚ) := by linarith
        nlinarith
      constructor
      · show (pyInt e).toNat = t.minute
        rw [hfe, hcase]
        exact Int.toNat_natCast _
      · have hub : (e - ((pyInt e : ℤ) : ℚ)) * 60 ≤ (t.second : ℚ) := by
          rw [hfe, hcase]
          push_cast
          push_cast at hle
          nlinarith [hle]
        have hsecle : (pyInt ((e - ((pyInt e : ℤ) : ℚ)) * 60)).toNat
            ≤ t.second := by
          rw [pyInt_of_nonneg _ harg0]
          have hfl := Int.floor_le_floor hub
          rw [Int.floor_natCast] at hfl
          exact Int.toNat_le.mpr hfl
        rcases lt_or_eq_of_le hsecle with hlt | heq
        · exact Or.inl hlt
        · exact Or.inr ⟨heq, Nat.zero_le _⟩
    · left
      have hlt : ⌊e⌋ < (t.minute : ℤ) := lt_of_le_of_ne h1 hcase
      show (pyInt e).toNat < t.minute
      rw [hfe]
      omega

/-- Witness for C10 at a concrete input: 12:34:56 with the AHI full-disk
schedule. -/
theorem get_sat_time_not_later_witness :
    (get_sat_time ⟨2021, 3, 4, 12, 34, 56, 7⟩ [0, 10, 20, 30, 40, 50]).year
        = (⟨2021, 3, 4, 12, 34, 56, 7⟩ : DT).year ∧
    (get_sat_time ⟨2021, 3, 4, 12, 34, 56, 7⟩ [0, 10, 20, 30, 40, 50]).month
        = (⟨2021, 3, 4, 12, 34, 56, 7⟩ : DT).month ∧
    (get_sat_time ⟨2021, 3, 4, 12, 34, 56, 7⟩ [0, 10, 20, 30, 40, 50]).day
        = (⟨2021, 3, 4, 12, 34, 56, 7⟩ : DT).day ∧
    (get_sat_time ⟨2021, 3, 4, 12, 34, 56, 7⟩ [0, 10, 20, 30, 40, 50]).hour
        = (⟨2021, 3, 4, 12, 34, 56, 7⟩ : DT).hour ∧
    (get_sat_time ⟨2021, 3, 4, 12, 34, 56, 7⟩
        [0, 10, 20, 30, 40, 50]).microsecond = 0 ∧
    ((get_sat_time ⟨2021, 3, 4, 12, 34, 56, 7⟩ [0, 10, 20, 30, 40, 50]).minute
        < (⟨2021, 3, 4, 12, 34, 56, 7⟩ : DT).minute ∨
      ((get_sat_time ⟨2021, 3, 4, 12, 34, 56, 7⟩
          [0, 10, 20, 30, 40, 50]).minute
          = (⟨2021, 3, 4, 12, 34, 56, 7⟩ : DT).minute ∧
        ((get_sat_time ⟨2021, 3, 4, 12, 34, 56, 7⟩
            [0, 10, 20, 30, 40, 50]).second
            < (⟨2021, 3, 4, 12, 34, 56, 7⟩ : DT).second ∨
          ((get_sat_time ⟨2021, 3, 4, 12, 34, 56, 7⟩
              [0, 10, 20, 30, 40, 50]).second
              = (⟨2021, 3, 4, 12, 34, 56, 7⟩ : DT).second ∧
            (get_sat_time ⟨2021, 3, 4, 12, 34, 56, 7⟩
                [0, 10, 20, 30, 40, 50]).microsecond
                ≤ (⟨2021, 3, 4, 12, 34, 56, 7⟩ : DT).microsecond)))) ∧
    (get_sat_time ⟨2021, 3, 4, 12, 34, 56, 7⟩ [0, 10, 20, 30, 40, 50]
        = { (⟨2021, 3, 4, 12, 34, 56, 7⟩ : DT) with microsecond := 0 } ∨
      ∃ e ∈ ([0, 10, 20, 30, 40, 50] : List ℚ), 0 ≤ e ∧
        e ≤ ((⟨2021, 3, 4, 12, 34, 56, 7⟩ : DT).minute : ℚ)
          + ((⟨2021, 3, 4, 12, 34, 56, 7⟩ : DT).second : ℚ) / 60 ∧
        get_sat_time ⟨2021, 3, 4, 12, 34, 56, 7⟩ [0, 10, 20, 30, 40, 50]
          = snapResult ⟨2021, 3, 4, 12, 34, 56, 7⟩ e) :=
  get_sat_time_not_later ⟨2021, 3, 4, 12, 34, 56, 7⟩ "AHI" "FD"
    [0, 10, 20, 30, 40, 50] (by simp [sat_timesteps]) (by norm_num)

/-! ### Helper lemmas about the frame loop -/

/-- A skipped frame leaves the loop state untouched and neither the
loader nor the renderer runs. -/
lemma procFrame_skip (loader : DT → Option Scene) (sched : List ℚ)
    (f : AcFrame) (st : DriverState) (hex : f.outExists = true) :
    procFrame loader sched f st = (st, ⟨false, FrameResult.skipped⟩) := by
  unfold procFrame
  rw [hex]
  simp

/-- The fallback branch (Main.py lines 113-114): the loader reports no
data but a previously successful scene is held, so `sat_img` is replaced
by `old_scn` and both cache slots keep the old scene; the iteration then
still aborts at the `setup_plot` call. -/
lemma procFrame_fallback_caches (loader : DT → Option Scene)
    (sched : List ℚ) (f : AcFrame) (st : DriverState) (w : DT) (osc : Scene)
    (hex : f.outExists = false) (hw : get_sat_time f.cur_time sched = w)
    (hprev : st.prev_time ≠ w) (hl : loader w = none)
    (ho : st.old_scn = some osc) :
    procFrame loader sched f st =
      (⟨w, some osc, some osc⟩, ⟨true, FrameResult.crashedSetupPlot⟩) := by
  simp [procFrame, hex, hw, hl, ho, Ne.symm hprev]

/-! ### Claim theorems: the frame loop -/

/-- C2: concrete evaluation at the claim scenario (the spec's five-point
example).  Five consecutive frames, none with existing output, all
mapping to the full-disk window 12:20:00, entered with the initial
state: the first iteration invokes the loader, caches the scene — and
then aborts the run with the `TypeError` of the four-against-three
`setup_plot` call (Main.py line 126 against Plotting.py line 31).  The
loader is thus invoked once, but the four later iterations never execute
at all, rather than reusing the cached outcome as the claim states. -/
theorem cache_single_flight_run_aborts :
    runDriver (fun _ => some 7) [0, 10, 20, 30, 40, 50]
        [⟨false, ⟨2021, 5, 1, 12, 25, 30, 0⟩⟩,
         ⟨false, ⟨2021, 5, 1, 12, 26, 0, 0⟩⟩,
         ⟨false, ⟨2021, 5, 1, 12, 27, 0, 0⟩⟩,
         ⟨false, ⟨2021, 5, 1, 12, 28, 0, 0⟩⟩,
         ⟨false, ⟨2021, 5, 1, 12, 29, 0, 0⟩⟩] initState =
      (⟨⟨2021, 5, 1, 12, 20, 0, 0⟩, some 7, some 7⟩,
        [⟨true, FrameResult.crashedSetupPlot⟩]) := by
  have h1 : get_sat_time ⟨2021, 5, 1, 12, 25, 30, 0⟩ [0, 10, 20, 30, 40, 50]
      = ⟨2021, 5, 1, 12, 20, 0, 0⟩ := by
    norm_num [get_sat_time, snapEntry, snapResult, pyInt]
    decide
  simp [runDriver, procFrame, h1, initState, DT.mk.injEq]

/-- C5: a frame whose expected output file already exists is skipped
before any other per-frame work: the state is untouched and neither the
loader nor the renderer is invoked; consequently a completed run is
entirely skipped on re-run. -/
theorem skip_existing_frames :
    (∀ (loader : DT → Option Scene) (sched : List ℚ) (f : AcFrame)
      (st : DriverState), f.outExists = true →
      procFrame loader sched f st = (st, ⟨false, FrameResult.skipped⟩))
    ∧ (∀ (loader : DT → Option Scene) (sched : List ℚ)
      (frames : List AcFrame) (st : DriverState),
      (∀ f ∈ frames, f.outExists = true) →
      runDriver loader sched frames st =
        (st, frames.map (fun _ => ⟨false, FrameResult.skipped⟩))) := by
  constructor
  · exact fun loader sched f st hex => procFrame_skip loader sched f st hex
  · intro loader sched frames
    induction frames with
    | nil => intro st _; rfl
    | cons f fs ih =>
      intro st h
      have hstep := procFrame_skip loader sched f st (h f (List.mem_cons_self _ _))
      unfold runDriver
      rw [hstep]
      rw [ih st (fun g hg => h g (List.mem_cons_of_mem _ hg))]
      simp

/-- Witness for C5 at a concrete input: a single frame with existing
output is skipped and the run does nothing. -/
theorem skip_existing_frames_witness :
    procFrame (fun _ => none) [] ⟨true, ⟨2020, 1, 1, 0, 0, 0, 0⟩⟩ initState
      = (initState, ⟨false, FrameResult.skipped⟩) ∧
    runDriver (fun _ => none) [] [⟨true, ⟨2020, 1, 1, 0, 0, 0, 0⟩⟩] initState
      = (initState, [⟨false, FrameResult.skipped⟩]) := by
  constructor
  · exact skip_existing_frames.1 (fun _ => none) [] _ initState rfl
  · have h := skip_existing_frames.2 (fun _ => none) []
      [⟨true, ⟨2020, 1, 1, 0, 0, 0, 0⟩⟩] initState
      (by intro f hf; simp at hf; rw [hf])
    simpa using h

/-- C1: concrete evaluations of the loop at the claim scenarios.
First: a frame in a window the loader serves — the scene is loaded and
cached, yet the iteration aborts with the `TypeError` of calling the
three-parameter `setup_plot` with four positional arguments (Main.py
line 126 against Plotting.py line 31) instead of rendering.  Second: the
fallback branch — the loader reports no data for a new window while a
previous scene is held; the old scene is re-cached exactly as the claim
describes, but the frame again aborts at the `setup_plot` call rather
than rendering from it.  Third: when no scene has ever loaded, the
iteration aborts even earlier, at the `sat_img[comp]` dereference of
`None`, instead of rendering a track-only frame.  No path renders a
frame and no run survives a non-skipped iteration. -/
theorem driver_fallback_and_crash :
    (runDriver
        (fun v => if v = ⟨2021, 5, 1, 12, 20, 0, 0⟩ then some 7 else none)
        [0, 10, 20, 30, 40, 50]
        [⟨false, ⟨2021, 5, 1, 12, 25, 30, 0⟩⟩] initState) =
      (⟨⟨2021, 5, 1, 12, 20, 0, 0⟩, some 7, some 7⟩,
        [⟨true, FrameResult.crashedSetupPlot⟩]) ∧
    (procFrame (fun _ => none) [0, 10, 20, 30, 40, 50]
        ⟨false, ⟨2021, 5, 1, 12, 30, 10, 0⟩⟩
        ⟨⟨2021, 5, 1, 12, 20, 0, 0⟩, some 7, some 7⟩) =
      (⟨⟨2021, 5, 1, 12, 30, 0, 0⟩, some 7, some 7⟩,
        ⟨true, FrameResult.crashedSetupPlot⟩) ∧
    (runDriver (fun _ => none) [0, 10, 20, 30, 40, 50]
        [⟨false, ⟨2021, 5, 1, 12, 25, 30, 0⟩⟩] initState) =
      (⟨⟨2021, 5, 1, 12, 20, 0, 0⟩, none, none⟩,
        [⟨true, FrameResult.crashedNoneScene⟩]) := by
  have h1 : get_sat_time ⟨2021, 5, 1, 12, 25, 30, 0⟩ [0, 10, 20, 30, 40, 50]
      = ⟨2021, 5, 1, 12, 20, 0, 0⟩ := by
    norm_num [get_sat_time, snapEntry, snapResult, pyInt]
    decide
  have h2 : get_sat_time ⟨2021, 5, 1, 12, 30, 10, 0⟩ [0, 10, 20, 30, 40, 50]
      = ⟨2021, 5, 1, 12, 30, 0, 0⟩ := by
    norm_num [get_sat_time, snapEntry, snapResult, pyInt]
    decide
  refine ⟨?_, ?_, ?_⟩
  · simp [runDriver, procFrame, h1, initState, DT.mk.injEq]
  · simp [procFrame, h2, DT.mk.injEq]
  · simp [runDriver, procFrame, h1, initState, DT.mk.injEq]
